import Mathlib

/-!
# Verification of the tiered-graph visibility / expansion / ingestion core

Shallow embedding of the decision logic of the "NEBULA.AGI" knowledge-graph
viewer: the visibility engine (`visibleData` in `App.tsx`), the expansion
toggle (`handleNodeClick` in `App.tsx`), the CSV ingestion
(`parseCsvToGraph` in `utils/csvParser.ts`) and the built-in default data
(`DEFAULT_GRAPH_DATA` in `types.ts`).  Rendering-only fields of the node
record (layout coordinates `x`/`y`/`z`/`fx`/`fy`/`fz`) are omitted: they are
written only by the rendering collaborator and read by no modelled code.
JavaScript `Set` objects are modelled as `Finset String`; arrays as `List`.
-/

/-- A node of the graph (`GraphNode` in `types.ts`).  The `group` field is a
string in the dynamic semantics (the engine compares it against the three
literals), so it is embedded as `String`, not as a closed enum. -/
structure GraphNode where
  id : String
  name : String
  group : String
  val : ℚ
  desc : Option String := none
  evidence : Option String := none
  analysis : Option String := none
  color : Option String := none
deriving DecidableEq, Repr

/-- A link endpoint: either a plain id, or an in-place node reference written
by the rendering layer (`source: string | GraphNode` in `types.ts`). -/
inductive LinkEnd where
  | plain (s : String)
  | ref (n : GraphNode)
deriving DecidableEq, Repr

/-- Resolve a link endpoint to a plain id: the embedding of
`typeof link.source === 'object' ? link.source.id : link.source`. -/
def LinkEnd.endId : LinkEnd → String
  | .plain s => s
  | .ref n => n.id

/-- A link of the graph (`GraphLink` in `types.ts`). -/
structure GraphLink where
  source : LinkEnd
  target : LinkEnd
  color : Option String := none
deriving DecidableEq, Repr

/-- The graph (`GraphData` in `types.ts`). -/
structure GraphData where
  nodes : List GraphNode
  links : List GraphLink
deriving DecidableEq, Repr

/-- `listPrefixOf a b` holds when list `a` is an initial segment of `b`. -/
def listPrefixOf : List Char → List Char → Bool
  | [], _ => true
  | _ :: _, [] => false
  | a :: as, b :: bs => a == b && listPrefixOf as bs

/-- Substring occurrence on character lists (needle first). -/
def listContains (needle : List Char) : List Char → Bool
  | [] => listPrefixOf needle []
  | c :: rest => listPrefixOf needle (c :: rest) || listContains needle rest

/-- The embedding of JavaScript `hay.includes(needle)`. -/
def strIncludes (hay needle : String) : Bool :=
  listContains needle.data hay.data

/-- ASCII lower-casing of one character (the case the engine's comparisons
exercise; `A`–`Z` map to `a`–`z`, all else is fixed). -/
def charToLower (c : Char) : Char :=
  if c.toNat ≥ 65 && c.toNat ≤ 90 then Char.ofNat (c.toNat + 32) else c

/-- The embedding of `s.toLowerCase()`, character-wise over the content. -/
def strToLower (s : String) : String :=
  ⟨s.data.map charToLower⟩

/-- The embedding of `s.trim()`: strip leading and trailing whitespace. -/
def strTrim (s : String) : String :=
  ⟨((s.data.dropWhile Char.isWhitespace).reverse.dropWhile Char.isWhitespace).reverse⟩

/-- Undirected adjacency derived from the links (the `neighbors` record built
in `App.tsx`, lines 49–57): for each link, the resolved target is pushed onto
the source's list and the resolved source onto the target's list. -/
def neighbors (g : GraphData) (x : String) : List String :=
  g.links.flatMap fun l =>
    (if l.source.endId = x then [l.target.endId] else []) ++
    (if l.target.endId = x then [l.source.endId] else [])

/-- The explore-mode tier rule applied to one node (the body of the
`masterData.nodes.forEach` loop building `nodesToShow`, `App.tsx` 124–143):
category filter first, then `center` and `planet` unconditionally, then a
`satellite` iff some undirected neighbor is in the expansion set. -/
def exploreShow (g : GraphData) (activeGroups expandedNodes : Finset String)
    (n : GraphNode) : Bool :=
  if n.group ∉ activeGroups then false
  else if n.group = "center" then true
  else if n.group = "planet" then true
  else if n.group = "satellite" then
    (neighbors g n.id).any fun nid => decide (nid ∈ expandedNodes)
  else false

/-- The id set `nodesToShow` of the explore branch. -/
def nodesToShow (g : GraphData) (activeGroups expandedNodes : Finset String) :
    Finset String :=
  (((g.nodes.filter (exploreShow g activeGroups expandedNodes)).map
    GraphNode.id)).toFinset

/-- Whether a node matches the search query (`App.tsx` 87–90):
`name.toLowerCase().includes(lowerQuery) || desc?.toLowerCase().includes(lowerQuery)`. -/
def searchMatch (lowerQuery : String) (n : GraphNode) : Bool :=
  strIncludes (strToLower n.name) lowerQuery ||
    (match n.desc with
     | some d => strIncludes (strToLower d) lowerQuery
     | none => false)

/-- Result of the visibility engine: the derived subgraph plus the highlight
set (the `{ visibleData, highlightedNodeIds }` pair of the `useMemo`). -/
structure VisResult where
  nodes : List GraphNode
  links : List GraphLink
  highlighted : Finset String

/-- The visibility engine: the embedding of the `useMemo` body in `App.tsx`
(lines 29–161).  Mode is selected by `searchQuery.length > 0`.  Search mode
returns all category-filtered nodes, links with both resolved endpoints
category-visible, and the ids of all query-matching nodes of the master data.
Explore mode returns the tier-rule nodes, links with both resolved endpoints
in `nodesToShow`, and an empty highlight set. -/
def visibleData (g : GraphData) (activeGroups expandedNodes : Finset String)
    (searchQuery : String) : VisResult :=
  let filteredNodes := g.nodes.filter fun n => n.group ∈ activeGroups
  let filteredNodeIds := (filteredNodes.map GraphNode.id).toFinset
  if 0 < searchQuery.length then
    let lowerQuery := strToLower searchQuery
    let matchNodes := g.nodes.filter (searchMatch lowerQuery)
    let matchIds := (matchNodes.map GraphNode.id).toFinset
    { nodes := filteredNodes
      links := g.links.filter fun l =>
        l.source.endId ∈ filteredNodeIds ∧ l.target.endId ∈ filteredNodeIds
      highlighted := matchIds }
  else
    let shown := nodesToShow g activeGroups expandedNodes
    { nodes := g.nodes.filter fun n => n.id ∈ shown
      links := g.links.filter fun l =>
        l.source.endId ∈ shown ∧ l.target.endId ∈ shown
      highlighted := ∅ }

/-- The expansion-set effect of a node click (`handleNodeClick`, `App.tsx`
165–181): while the query is empty the clicked node's membership is toggled;
otherwise the set is unchanged.  (The selected-node camera state is
rendering-only and not modelled.) -/
def handleNodeClick (searchQuery : String) (expandedNodes : Finset String)
    (node : GraphNode) : Finset String :=
  if searchQuery = "" then
    if node.id ∈ expandedNodes then expandedNodes.erase node.id
    else insert node.id expandedNodes
  else expandedNodes

/-- The built-in default dataset (`DEFAULT_GRAPH_DATA` in `types.ts`). -/
def DEFAULT_GRAPH_DATA : GraphData :=
  { nodes :=
      [ { id := "AGI_CORE", name := "AGI Singularity", group := "center", val := 80,
          desc := some "The theoretical moment when AI surpasses human intelligence.",
          analysis := some "Central node of the system." },
        { id := "Neural_Nets", name := "Neural Networks", group := "planet", val := 30,
          desc := some "Computing systems inspired by biological neural networks." },
        { id := "Reasoning", name := "Reasoning", group := "planet", val := 30,
          desc := some "The ability to make inferences from data." },
        { id := "Creativity", name := "Creativity", group := "planet", val := 30,
          desc := some "Generative capabilities in art and text." },
        { id := "Ethics", name := "AI Ethics", group := "planet", val := 30,
          desc := some "Moral principles governing AI behavior." },
        { id := "Robotics", name := "Embodied AI", group := "planet", val := 30,
          desc := some "AI operating in the physical world." },
        { id := "Transformers", name := "Transformers", group := "satellite", val := 15,
          desc := some "Attention-based architecture." },
        { id := "Backprop", name := "Backpropagation", group := "satellite", val := 10,
          desc := some "Gradient descent optimization." },
        { id := "CoT", name := "Chain of Thought", group := "satellite", val := 15,
          desc := some "Step-by-step reasoning technique." },
        { id := "Symbolic", name := "Neuro-Symbolic", group := "satellite", val := 15,
          desc := some "Combining logic with neural nets." },
        { id := "Diffusion", name := "Diffusion Models", group := "satellite", val := 15,
          desc := some "Image generation technique." },
        { id := "LLMs", name := "Large Language Models", group := "satellite", val := 15,
          desc := some "Text generation foundations." },
        { id := "Alignment", name := "Alignment", group := "satellite", val := 15,
          desc := some "Ensuring AI goals match human values." },
        { id := "Bias", name := "Bias Mitigation", group := "satellite", val := 15,
          desc := some "Reducing unfair prejudice in models." },
        { id := "Sim2Real", name := "Sim2Real", group := "satellite", val := 15,
          desc := some "Transferring simulation skills to reality." },
        { id := "Sensors", name := "Multimodal Sensors", group := "satellite", val := 10,
          desc := some "Vision, touch, and audio integration." } ]
    links :=
      [ { source := .plain "AGI_CORE", target := .plain "Neural_Nets" },
        { source := .plain "AGI_CORE", target := .plain "Reasoning" },
        { source := .plain "AGI_CORE", target := .plain "Creativity" },
        { source := .plain "AGI_CORE", target := .plain "Ethics" },
        { source := .plain "AGI_CORE", target := .plain "Robotics" },
        { source := .plain "Neural_Nets", target := .plain "Transformers" },
        { source := .plain "Neural_Nets", target := .plain "Backprop" },
        { source := .plain "Reasoning", target := .plain "CoT" },
        { source := .plain "Reasoning", target := .plain "Symbolic" },
        { source := .plain "Creativity", target := .plain "Diffusion" },
        { source := .plain "Creativity", target := .plain "LLMs" },
        { source := .plain "Ethics", target := .plain "Alignment" },
        { source := .plain "Ethics", target := .plain "Bias" },
        { source := .plain "Robotics", target := .plain "Sim2Real" },
        { source := .plain "Robotics", target := .plain "Sensors" } ] }

/-- A parsed CSV data row as produced by header-keyed parsing: the record's
entries in header (column) order, so the first entry is the row's first
column (`Object.values(row)[0]`). -/
abbrev Row := List (String × String)

/-- Field access `row[key]` on a parsed row. -/
def rowGet (row : Row) (k : String) : Option String :=
  (row.find? fun p => p.1 == k).map Prod.snd

/-- JavaScript `a || b` on optional strings: `undefined` and the empty
string are falsy. -/
def jsOr (a b : Option String) : Option String :=
  match a with
  | some s => if s = "" then b else some s
  | none => b

/-- The name-resolution heuristic of `parseCsvToGraph`:
`row["主分支"] || row["Name"] || row["Node"] || row["Title"] || Object.values(row)[0]`. -/
def resolveName (row : Row) : Option String :=
  jsOr (rowGet row "主分支") (jsOr (rowGet row "Name") (jsOr (rowGet row "Node")
    (jsOr (rowGet row "Title") (row.head?.map Prod.snd))))

/-- Resolution of a secondary field by its three aliases, defaulting to the
empty string: `row[k1] || row[k2] || row[k3] || ""`. -/
def resolveField (row : Row) (k1 k2 k3 : String) : String :=
  match jsOr (rowGet row k1) (jsOr (rowGet row k2) (rowGet row k3)) with
  | some s => s
  | none => ""

/-- The accepted trimmed name of a row, if any: `none` when the name is
unresolvable (`!name` guard) or trims to the empty string (`!cleanId`
guard); otherwise the trimmed resolved name. -/
def acceptName (row : Row) : Option String :=
  match resolveName row with
  | none => none
  | some s =>
    if s = "" then none
    else if strTrim s = "" then none else some (strTrim s)

/-- The fixed center node synthesized first by `parseCsvToGraph`. -/
def centerNode : GraphNode :=
  { id := "AGI_CORE", name := "AGI Future", group := "center", val := 60,
    desc := some "The central core of Artificial General Intelligence.",
    analysis := some "System Root", color := some "#f0f9ff" }

/-- The node built from an accepted row.  The random size jitter
(`15 + Math.random() * 15`) is modelled by the injected `jit` amount. -/
def mkRowNode (cleanId : String) (row : Row) (jit : ℚ) : GraphNode :=
  { id := cleanId, name := cleanId, group := "planet", val := 15 + jit,
    desc := some (resolveField row "子节点/细节" "Description" "Detail"),
    evidence := some (resolveField row "关键引用/证据" "Evidence" "Reference"),
    analysis := some (resolveField row "分析/洞见" "Analysis" "Insight") }

/-- Accumulator of the row loop of `parseCsvToGraph`: the `nodes` and
`links` arrays and the `uniqueIds` set. -/
structure PState where
  nodes : List GraphNode
  links : List GraphLink
  seen : Finset String
deriving DecidableEq

/-- One iteration of the `results.data.forEach` row loop: skip when the name
is unresolvable, trims empty, or was already seen; otherwise append the new
planet node, record its id, and append the center link. -/
def parseStep (jitter : ℕ → ℚ) (st : PState) (ir : ℕ × Row) : PState :=
  match acceptName ir.2 with
  | none => st
  | some c =>
    if c ∈ st.seen then st
    else
      { nodes := st.nodes ++ [mkRowNode c ir.2 (jitter ir.1)]
        links := st.links ++ [{ source := .plain "AGI_CORE", target := .plain c }]
        seen := insert c st.seen }

/-- The CSV ingestion (`parseCsvToGraph` in `csvParser.ts`), over already
header-parsed rows: the center node is synthesized first and its id seeds
the dedup set, then the row loop runs.  `jitter` injects the random size
component of each row (indexed by row position). -/
def parseCsvToGraph (jitter : ℕ → ℚ) (rows : List Row) : GraphData :=
  let st := rows.enum.foldl (parseStep jitter)
    { nodes := [centerNode], links := [], seen := {"AGI_CORE"} }
  { nodes := st.nodes, links := st.links }

/-- A one-planet graph without the reserved center id. -/
def g_planet_only : GraphData :=
  { nodes := [ { id := "P1", name := "Planet One", group := "planet", val := 30 } ]
    links := [] }

/-- Two rows both resolving to the reserved center name. -/
def rowsCenterDup : List Row :=
  [ [("Name", "AGI_CORE")], [("Name", "AGI_CORE")] ]

/-- Three rows: two resolving to the trimmed name "Foo" (with different
descriptions) around one row whose name trims to empty. -/
def rowsDedupDemo : List Row :=
  [ [("Name", " Foo "), ("Description", "Bar")],
    [("Name", "   ")],
    [("Name", "Foo"), ("Description", "Baz")] ]

/-- The "Transformers" satellite of the default dataset. -/
def transformersNode : GraphNode :=
  { id := "Transformers", name := "Transformers", group := "satellite", val := 15,
    desc := some "Attention-based architecture." }

/-! ## Helper lemmas -/

theorem length_pos_of_ne_empty {q : String} (h : q ≠ "") : 0 < q.length := by
  cases q with
  | mk d =>
    cases d with
    | nil => exact absurd rfl h
    | cons c cs => simp [String.length]

theorem visibleData_explore_eq (g : GraphData) (ag es : Finset String) :
    visibleData g ag es "" =
      { nodes := g.nodes.filter fun n => n.id ∈ nodesToShow g ag es
        links := g.links.filter fun l =>
          l.source.endId ∈ nodesToShow g ag es ∧ l.target.endId ∈ nodesToShow g ag es
        highlighted := ∅ } := rfl

theorem visibleData_search_eq (g : GraphData) (ag es : Finset String) {q : String}
    (hq : q ≠ "") :
    visibleData g ag es q =
      { nodes := g.nodes.filter fun n => n.group ∈ ag
        links := g.links.filter fun l =>
          l.source.endId ∈ ((g.nodes.filter fun n => n.group ∈ ag).map GraphNode.id).toFinset ∧
          l.target.endId ∈ ((g.nodes.filter fun n => n.group ∈ ag).map GraphNode.id).toFinset
        highlighted :=
          ((g.nodes.filter (searchMatch (strToLower q))).map GraphNode.id).toFinset } := by
  have hlen : 0 < q.length := length_pos_of_ne_empty hq
  simp only [visibleData, hlen, if_true]

theorem mem_nodesToShow {g : GraphData} {ag es : Finset String} {x : String} :
    x ∈ nodesToShow g ag es ↔
      ∃ n, n ∈ g.nodes ∧ exploreShow g ag es n = true ∧ n.id = x := by
  simp only [nodesToShow, List.mem_toFinset, List.mem_map, List.mem_filter]
  tauto

theorem exploreShow_iff {g : GraphData} {ag es : Finset String} {n : GraphNode} :
    exploreShow g ag es n = true ↔
      n.group ∈ ag ∧ (n.group = "center" ∨ n.group = "planet" ∨
        (n.group = "satellite" ∧ ∃ m ∈ neighbors g n.id, m ∈ es)) := by
  unfold exploreShow
  split_ifs with h1 h2 h3 h4 <;> simp_all [List.any_eq_true]

theorem mem_explore_nodes {g : GraphData} {ag es : Finset String} {n : GraphNode} :
    n ∈ (visibleData g ag es "").nodes ↔ n ∈ g.nodes ∧ n.id ∈ nodesToShow g ag es := by
  rw [visibleData_explore_eq]
  simp [List.mem_filter]

theorem toFinset_filter_nodesToShow (g : GraphData) (ag es : Finset String) :
    ((g.nodes.filter fun n => n.id ∈ nodesToShow g ag es).map GraphNode.id).toFinset =
      nodesToShow g ag es := by
  ext x
  simp only [List.mem_toFinset, List.mem_map, List.mem_filter, decide_eq_true_eq]
  constructor
  · rintro ⟨n, ⟨hn, hmem⟩, rfl⟩
    exact hmem
  · intro hx
    rcases mem_nodesToShow.mp hx with ⟨n, hn, hshow, hid⟩
    exact ⟨n, ⟨hn, hid ▸ hx⟩, hid⟩

theorem searchMatch_iff {lower : String} {n : GraphNode} :
    searchMatch lower n = true ↔
      strIncludes (strToLower n.name) lower = true ∨
        ∃ d, n.desc = some d ∧ strIncludes (strToLower d) lower = true := by
  unfold searchMatch
  cases hd : n.desc <;> simp [hd]

theorem center_node_visible {g : GraphData} {ag es : Finset String} {n : GraphNode}
    (hn : n ∈ g.nodes) (hc : n.group = "center") (hag : n.group ∈ ag) :
    n ∈ (visibleData g ag es "").nodes := by
  refine mem_explore_nodes.mpr ⟨hn, mem_nodesToShow.mpr ⟨n, hn, ?_, rfl⟩⟩
  exact exploreShow_iff.mpr ⟨hag, Or.inl hc⟩

theorem mem_nodesToShow_of_nodup {g : GraphData} {ag es : Finset String} {n : GraphNode}
    (hids : (g.nodes.map GraphNode.id).Nodup) (hn : n ∈ g.nodes) :
    n.id ∈ nodesToShow g ag es ↔ exploreShow g ag es n = true := by
  constructor
  · intro hmem
    rcases mem_nodesToShow.mp hmem with ⟨m, hm, hshow, hid⟩
    have : m = n := List.inj_on_of_nodup_map hids hm hn hid
    exact this ▸ hshow
  · intro hshow
    exact mem_nodesToShow.mpr ⟨n, hn, hshow, rfl⟩

theorem parseStep_none {jitter : ℕ → ℚ} {st : PState} {ir : ℕ × Row}
    (h : acceptName ir.2 = none) : parseStep jitter st ir = st := by
  unfold parseStep
  rw [h]

theorem parseStep_seen {jitter : ℕ → ℚ} {st : PState} {ir : ℕ × Row} {c : String}
    (h : acceptName ir.2 = some c) (hc : c ∈ st.seen) : parseStep jitter st ir = st := by
  unfold parseStep
  rw [h]
  simp [hc]

theorem parseStep_new {jitter : ℕ → ℚ} {st : PState} {ir : ℕ × Row} {c : String}
    (h : acceptName ir.2 = some c) (hc : c ∉ st.seen) :
    parseStep jitter st ir =
      { nodes := st.nodes ++ [mkRowNode c ir.2 (jitter ir.1)]
        links := st.links ++ [{ source := .plain "AGI_CORE", target := .plain c }]
        seen := insert c st.seen } := by
  unfold parseStep
  rw [h]
  simp [hc]

theorem parse_foldl_seen (jitter : ℕ → ℚ) (l : List (ℕ × Row)) (st : PState)
    (nm : String) (hseen : nm ∈ st.seen) :
    ((l.foldl (parseStep jitter) st).nodes.filter fun n =>
        n.group = "planet" ∧ n.name = nm) =
      (st.nodes.filter fun n => n.group = "planet" ∧ n.name = nm) ∧
    ((l.foldl (parseStep jitter) st).links.filter fun lk => lk.target.endId = nm) =
      (st.links.filter fun lk => lk.target.endId = nm) := by
  induction l generalizing st with
  | nil => exact ⟨rfl, rfl⟩
  | cons ir rest ih =>
    rw [List.foldl_cons]
    cases hacc : acceptName ir.2 with
    | none =>
      rw [parseStep_none hacc]
      exact ih st hseen
    | some c =>
      by_cases hc : c ∈ st.seen
      · rw [parseStep_seen hacc hc]
        exact ih st hseen
      · rw [parseStep_new hacc hc]
        have hcnm : c ≠ nm := fun h => hc (h ▸ hseen)
        have h1 := ih
          { nodes := st.nodes ++ [mkRowNode c ir.2 (jitter ir.1)]
            links := st.links ++ [{ source := .plain "AGI_CORE", target := .plain c }]
            seen := insert c st.seen }
          (Finset.mem_insert_of_mem hseen)
        refine ⟨?_, ?_⟩
        · rw [h1.1, List.filter_append]
          simp [mkRowNode, hcnm]
        · rw [h1.2, List.filter_append]
          simp [LinkEnd.endId, hcnm]

theorem parse_foldl_firstwins (jitter : ℕ → ℚ) (l : List (ℕ × Row)) (st : PState)
    (nm : String) (hseen : nm ∉ st.seen) :
    (match l.find? (fun ir => acceptName ir.2 == some nm) with
     | some ir =>
        ((l.foldl (parseStep jitter) st).nodes.filter fun n =>
            n.group = "planet" ∧ n.name = nm) =
          (st.nodes.filter fun n => n.group = "planet" ∧ n.name = nm) ++
            [mkRowNode nm ir.2 (jitter ir.1)] ∧
        ((l.foldl (parseStep jitter) st).links.filter fun lk => lk.target.endId = nm) =
          (st.links.filter fun lk => lk.target.endId = nm) ++
            [{ source := .plain "AGI_CORE", target := .plain nm }]
     | none =>
        ((l.foldl (parseStep jitter) st).nodes.filter fun n =>
            n.group = "planet" ∧ n.name = nm) =
          (st.nodes.filter fun n => n.group = "planet" ∧ n.name = nm) ∧
        ((l.foldl (parseStep jitter) st).links.filter fun lk => lk.target.endId = nm) =
          (st.links.filter fun lk => lk.target.endId = nm)) := by
  induction l generalizing st with
  | nil => exact ⟨rfl, rfl⟩
  | cons ir rest ih =>
    rw [List.foldl_cons]
    cases hacc : acceptName ir.2 with
    | none =>
      rw [parseStep_none hacc]
      have hfind : List.find? (fun ir2 => acceptName ir2.2 == some nm) (ir :: rest) =
          List.find? (fun ir2 => acceptName ir2.2 == some nm) rest := by
        rw [List.find?_cons]
        simp [hacc]
      rw [hfind]
      exact ih st hseen
    | some c =>
      by_cases hcnm : c = nm
      · subst hcnm
        have hfind : List.find? (fun ir2 => acceptName ir2.2 == some c) (ir :: rest) =
            some ir := by
          rw [List.find?_cons]
          simp [hacc]
        rw [hfind]
        rw [parseStep_new hacc hseen]
        have h2 := parse_foldl_seen jitter rest
          { nodes := st.nodes ++ [mkRowNode c ir.2 (jitter ir.1)]
            links := st.links ++ [{ source := .plain "AGI_CORE", target := .plain c }]
            seen := insert c st.seen }
          c (Finset.mem_insert_self c st.seen)
        refine ⟨?_, ?_⟩
        · rw [h2.1, List.filter_append]
          simp [mkRowNode]
        · rw [h2.2, List.filter_append]
          simp [LinkEnd.endId]
      · have hfind : List.find? (fun ir2 => acceptName ir2.2 == some nm) (ir :: rest) =
            List.find? (fun ir2 => acceptName ir2.2 == some nm) rest := by
          rw [List.find?_cons]
          simp [hacc, beq_eq_false_iff_ne.mpr hcnm]
        rw [hfind]
        by_cases hc : c ∈ st.seen
        · rw [parseStep_seen hacc hc]
          exact ih st hseen
        · rw [parseStep_new hacc hc]
          have hseen' : nm ∉ insert c st.seen := by
            simp only [Finset.mem_insert]
            rintro (h | h)
            · exact hcnm h.symm
            · exact hseen h
          have ihr := ih
            { nodes := st.nodes ++ [mkRowNode c ir.2 (jitter ir.1)]
              links := st.links ++ [{ source := .plain "AGI_CORE", target := .plain c }]
              seen := insert c st.seen }
            hseen'
          cases hfind2 : List.find? (fun ir2 => acceptName ir2.2 == some nm) rest with
          | none =>
            rw [hfind2] at ihr
            refine ⟨?_, ?_⟩
            · rw [ihr.1, List.filter_append]
              simp [mkRowNode, hcnm]
            · rw [ihr.2, List.filter_append]
              simp [LinkEnd.endId, hcnm]
          | some ir2 =>
            rw [hfind2] at ihr
            refine ⟨?_, ?_⟩
            · rw [ihr.1, List.filter_append]
              simp [mkRowNode, hcnm]
            · rw [ihr.2, List.filter_append]
              simp [LinkEnd.endId, hcnm]

/-! ## Claim theorems -/

/-- **C1**: in explore mode (empty query), a node is visible iff its group is
in `activeGroups` and it is a center or planet, or a satellite with at least
one undirected neighbor in `expandedSet` (OR across neighbors); the
highlighted-id set is empty in this mode. -/
theorem explore_visibility_rule (g : GraphData) (ag es : Finset String)
    (n : GraphNode) (hids : (g.nodes.map GraphNode.id).Nodup) :
    (n ∈ (visibleData g ag es "").nodes ↔
      n ∈ g.nodes ∧ n.group ∈ ag ∧
        (n.group = "center" ∨ n.group = "planet" ∨
          (n.group = "satellite" ∧ ∃ m ∈ neighbors g n.id, m ∈ es))) ∧
    (visibleData g ag es "").highlighted = ∅ := by
  constructor
  · rw [mem_explore_nodes]
    constructor
    · rintro ⟨hn, hmem⟩
      have hshow := (mem_nodesToShow_of_nodup hids hn).mp hmem
      have h := exploreShow_iff.mp hshow
      exact ⟨hn, h.1, h.2⟩
    · rintro ⟨hn, hag, hrule⟩
      exact ⟨hn, (mem_nodesToShow_of_nodup hids hn).mpr
        (exploreShow_iff.mpr ⟨hag, hrule⟩)⟩
  · rfl

/-- Witness for `explore_visibility_rule`: the Transformers satellite of the
default dataset, with all groups active and the center and Neural_Nets
expanded. -/
theorem explore_visibility_rule_witness :
    (transformersNode ∈ (visibleData DEFAULT_GRAPH_DATA
        {"center", "planet", "satellite"} {"AGI_CORE", "Neural_Nets"} "").nodes ↔
      transformersNode ∈ DEFAULT_GRAPH_DATA.nodes ∧
        transformersNode.group ∈ ({"center", "planet", "satellite"} : Finset String) ∧
        (transformersNode.group = "center" ∨ transformersNode.group = "planet" ∨
          (transformersNode.group = "satellite" ∧
            ∃ m ∈ neighbors DEFAULT_GRAPH_DATA transformersNode.id,
              m ∈ ({"AGI_CORE", "Neural_Nets"} : Finset String)))) ∧
    (visibleData DEFAULT_GRAPH_DATA {"center", "planet", "satellite"}
        {"AGI_CORE", "Neural_Nets"} "").highlighted = ∅ :=
  explore_visibility_rule DEFAULT_GRAPH_DATA {"center", "planet", "satellite"}
    {"AGI_CORE", "Neural_Nets"} transformersNode (by decide)

/-- **C2**: in search mode (non-empty query) the visible-node set is exactly
the category-filtered node set, so it is independent of the expansion set. -/
theorem search_ignores_expansion (g : GraphData) (ag e1 e2 : Finset String)
    (q : String) (hq : q ≠ "") :
    (visibleData g ag e1 q).nodes = g.nodes.filter (fun n => n.group ∈ ag) ∧
    (visibleData g ag e1 q).nodes = (visibleData g ag e2 q).nodes := by
  rw [visibleData_search_eq g ag e1 hq, visibleData_search_eq g ag e2 hq]
  exact ⟨rfl, rfl⟩

/-- Witness for `search_ignores_expansion` on the default dataset with query
"ai" and two different expansion sets. -/
theorem search_ignores_expansion_witness :
    ((visibleData DEFAULT_GRAPH_DATA {"center", "planet"} ∅ "ai").nodes =
      DEFAULT_GRAPH_DATA.nodes.filter
        (fun n => n.group ∈ ({"center", "planet"} : Finset String))) ∧
    ((visibleData DEFAULT_GRAPH_DATA {"center", "planet"} ∅ "ai").nodes =
      (visibleData DEFAULT_GRAPH_DATA {"center", "planet"} {"AGI_CORE"} "ai").nodes) :=
  search_ignores_expansion DEFAULT_GRAPH_DATA {"center", "planet"} ∅ {"AGI_CORE"}
    "ai" (by decide)

/-- **C6**: in both modes, a link is visible iff it is a link of the graph
whose both resolved endpoints are ids of visible nodes; links with a dangling
or filtered-out endpoint are excluded. -/
theorem visible_links_rule (g : GraphData) (ag es : Finset String) (q : String)
    (l : GraphLink) :
    l ∈ (visibleData g ag es q).links ↔
      l ∈ g.links ∧
        l.source.endId ∈ ((visibleData g ag es q).nodes.map GraphNode.id).toFinset ∧
        l.target.endId ∈ ((visibleData g ag es q).nodes.map GraphNode.id).toFinset := by
  by_cases hq : q = ""
  · subst hq
    rw [visibleData_explore_eq]
    simp only [List.mem_filter, decide_eq_true_eq, toFinset_filter_nodesToShow]
  · rw [visibleData_search_eq g ag es hq]
    simp only [List.mem_filter, decide_eq_true_eq]

/-- **C8**: on the built-in default graph, with all three groups active, the
center and Neural_Nets expanded and an empty query, exactly the center, the
five planets and the two Neural_Nets satellites are visible (8 nodes), and
exactly the five center–planet links plus the two Neural_Nets–satellite
links are visible (7 links). -/
theorem default_graph_scenario_b :
    ((visibleData DEFAULT_GRAPH_DATA {"center", "planet", "satellite"}
        {"AGI_CORE", "Neural_Nets"} "").nodes.map GraphNode.id =
      ["AGI_CORE", "Neural_Nets", "Reasoning", "Creativity", "Ethics", "Robotics",
        "Transformers", "Backprop"]) ∧
    ((visibleData DEFAULT_GRAPH_DATA {"center", "planet", "satellite"}
        {"AGI_CORE", "Neural_Nets"} "").nodes.length = 8) ∧
    ((visibleData DEFAULT_GRAPH_DATA {"center", "planet", "satellite"}
        {"AGI_CORE", "Neural_Nets"} "").links =
      [ { source := .plain "AGI_CORE", target := .plain "Neural_Nets" },
        { source := .plain "AGI_CORE", target := .plain "Reasoning" },
        { source := .plain "AGI_CORE", target := .plain "Creativity" },
        { source := .plain "AGI_CORE", target := .plain "Ethics" },
        { source := .plain "AGI_CORE", target := .plain "Robotics" },
        { source := .plain "Neural_Nets", target := .plain "Transformers" },
        { source := .plain "Neural_Nets", target := .plain "Backprop" } ]) ∧
    ((visibleData DEFAULT_GRAPH_DATA {"center", "planet", "satellite"}
        {"AGI_CORE", "Neural_Nets"} "").links.length = 7) := by
  refine ⟨by decide, by decide, by decide, by decide⟩

/-- **C9**: a node click during a non-empty query leaves the expansion set
unchanged; with an empty query it toggles exactly the clicked node's
membership and preserves every other id's membership. -/
theorem node_click_toggles (q : String) (es : Finset String) (n : GraphNode) :
    (q ≠ "" → handleNodeClick q es n = es) ∧
    (q = "" →
      ((n.id ∈ handleNodeClick q es n ↔ n.id ∉ es) ∧
        ∀ x : String, x ≠ n.id → (x ∈ handleNodeClick q es n ↔ x ∈ es))) := by
  constructor
  · intro hq
    unfold handleNodeClick
    rw [if_neg hq]
  · intro hq
    subst hq
    unfold handleNodeClick
    rw [if_pos rfl]
    by_cases hmem : n.id ∈ es
    · rw [if_pos hmem]
      refine ⟨by simp [Finset.mem_erase, hmem], ?_⟩
      intro x hx
      simp [Finset.mem_erase, hx]
    · rw [if_neg hmem]
      refine ⟨by simp [Finset.mem_insert, hmem], ?_⟩
      intro x hx
      simp [Finset.mem_insert, hx]

/-- Witness for `node_click_toggles`: clicking Transformers with a non-empty
query leaves the set unchanged; with an empty query it adds the id and keeps
an unrelated id's membership. -/
theorem node_click_toggles_witness :
    (handleNodeClick "ai" {"AGI_CORE"} transformersNode = {"AGI_CORE"}) ∧
    ("Transformers" ∈ handleNodeClick "" {"AGI_CORE"} transformersNode ↔
      "Transformers" ∉ ({"AGI_CORE"} : Finset String)) ∧
    ("AGI_CORE" ∈ handleNodeClick "" {"AGI_CORE"} transformersNode ↔
      "AGI_CORE" ∈ ({"AGI_CORE"} : Finset String)) :=
  ⟨(node_click_toggles "ai" {"AGI_CORE"} transformersNode).1 (by decide),
    ((node_click_toggles "" {"AGI_CORE"} transformersNode).2 rfl).1,
    ((node_click_toggles "" {"AGI_CORE"} transformersNode).2 rfl).2 "AGI_CORE"
      (by decide)⟩

/-- **C3** counterexample: a graph without the reserved center id whose
explore-mode result is nonetheless non-empty — a single active planet node
remains visible. -/
theorem explore_missing_center_cex :
    (∀ n ∈ g_planet_only.nodes, n.id ≠ "AGI_CORE") ∧
    (visibleData g_planet_only {"planet"} ∅ "").nodes.map GraphNode.id = ["P1"] ∧
    (visibleData g_planet_only {"planet"} ∅ "").nodes ≠ [] := by
  refine ⟨by decide, by decide, by decide⟩

/-- **C3** (amended): when the reserved center id is absent, explore mode
signals no error and simply applies the ordinary tier rule — active-group
planets stay visible — so the result is empty iff no node passes the tier
rule, not merely because the center is absent. -/
theorem explore_missing_center_tier_rule (g : GraphData) (ag es : Finset String)
    (_hnc : ∀ n ∈ g.nodes, n.id ≠ "AGI_CORE")
    (hids : (g.nodes.map GraphNode.id).Nodup) :
    (visibleData g ag es "").nodes = g.nodes.filter (exploreShow g ag es) ∧
    (visibleData g ag es "").highlighted = ∅ ∧
    ((visibleData g ag es "").nodes = [] ↔
      ∀ n ∈ g.nodes, exploreShow g ag es n = false) := by
  have hfil : (g.nodes.filter fun n => n.id ∈ nodesToShow g ag es) =
      g.nodes.filter (exploreShow g ag es) := by
    apply List.filter_congr
    intro n hn
    have h := @mem_nodesToShow_of_nodup g ag es n hids hn
    by_cases hb : exploreShow g ag es n = true
    · simp [hb, h.mpr hb]
    · have hnot : n.id ∉ nodesToShow g ag es := fun hm => hb (h.mp hm)
      rw [Bool.not_eq_true] at hb
      simp [hnot, hb]
  have h3 : (visibleData g ag es "").nodes = g.nodes.filter (exploreShow g ag es) :=
    hfil
  refine ⟨h3, rfl, ?_⟩
  rw [h3, List.filter_eq_nil_iff]
  simp [Bool.not_eq_true]

/-- Witness for `explore_missing_center_tier_rule` at the one-planet graph
lacking the center id. -/
theorem explore_missing_center_tier_rule_witness :
    ((visibleData g_planet_only {"planet"} ∅ "").nodes =
      g_planet_only.nodes.filter (exploreShow g_planet_only {"planet"} ∅)) ∧
    ((visibleData g_planet_only {"planet"} ∅ "").highlighted = ∅) ∧
    ((visibleData g_planet_only {"planet"} ∅ "").nodes = [] ↔
      ∀ n ∈ g_planet_only.nodes, exploreShow g_planet_only {"planet"} ∅ n = false) :=
  explore_missing_center_tier_rule g_planet_only {"planet"} ∅ (by decide) (by decide)

/-- **C4** counterexample: with only the center tier active, node "P1"
matches the query "planet" and is highlighted although the visible-node set
is empty — the highlighted-id set is not a subset of the visible-node set. -/
theorem search_highlight_not_subset_cex :
    "P1" ∈ (visibleData g_planet_only {"center"} ∅ "planet").highlighted ∧
    (visibleData g_planet_only {"center"} ∅ "planet").nodes = [] := by
  refine ⟨by decide, by decide⟩

/-- **C4** (amended): in search mode the highlighted-id set contains exactly
the ids of those nodes of the whole graph — visible or not, regardless of
`activeGroups` — whose name or desc contains the query as a case-insensitive
substring. -/
theorem search_highlight_rule (g : GraphData) (ag es : Finset String)
    (q : String) (hq : q ≠ "") (x : String) :
    x ∈ (visibleData g ag es q).highlighted ↔
      ∃ n, n ∈ g.nodes ∧ n.id = x ∧
        (strIncludes (strToLower n.name) (strToLower q) = true ∨
          ∃ d, n.desc = some d ∧ strIncludes (strToLower d) (strToLower q) = true) := by
  rw [visibleData_search_eq g ag es hq]
  simp only [List.mem_toFinset, List.mem_map, List.mem_filter]
  constructor
  · rintro ⟨n, ⟨hn, hm⟩, rfl⟩
    exact ⟨n, hn, rfl, searchMatch_iff.mp hm⟩
  · rintro ⟨n, hn, rfl, hm⟩
    exact ⟨n, ⟨hn, searchMatch_iff.mpr hm⟩, rfl⟩

/-- Witness for `search_highlight_rule` at the hidden matching planet. -/
theorem search_highlight_rule_witness :
    "P1" ∈ (visibleData g_planet_only {"center"} ∅ "planet").highlighted ↔
      ∃ n, n ∈ g_planet_only.nodes ∧ n.id = "P1" ∧
        (strIncludes (strToLower n.name) (strToLower "planet") = true ∨
          ∃ d, n.desc = some d ∧
            strIncludes (strToLower d) (strToLower "planet") = true) :=
  search_highlight_rule g_planet_only {"center"} ∅ "planet" (by decide) "P1"

/-- **C5** counterexample: no state at all — whatever the graph and the
expansion set, in particular any state reachable by toggling the center id
out of the expansion set — empties the explore view while a center-group
node is present and all three groups are active: the claimed state does not
exist. -/
theorem collapse_center_empties_view_cex :
    ¬ ∃ (g : GraphData) (ag es : Finset String),
        (∃ n ∈ g.nodes, n.group = "center") ∧
        ({"center", "planet", "satellite"} : Finset String) ⊆ ag ∧
        "AGI_CORE" ∉ es ∧
        (visibleData g ag es "").nodes = [] := by
  rintro ⟨g, ag, es, ⟨n, hn, hc⟩, hsub, -, hempty⟩
  have hmem : n.group ∈ ({"center", "planet", "satellite"} : Finset String) := by
    rw [hc]; decide
  have hvis := @center_node_visible g ag es n hn hc (hsub hmem)
  rw [hempty] at hvis
  simp at hvis

/-- **C5** (amended): toggling the center id out of the Expansion Set hides
at most satellites; while a center-group node with an active group is
present, the explore-mode view is never empty, whatever the expansion set. -/
theorem collapse_center_view_nonempty (g : GraphData) (ag es : Finset String)
    (h : ∃ n ∈ g.nodes, n.group = "center" ∧ n.group ∈ ag) :
    (visibleData g ag es "").nodes ≠ [] := by
  rcases h with ⟨n, hn, hc, hag⟩
  intro hempty
  have hvis := @center_node_visible g ag es n hn hc hag
  rw [hempty] at hvis
  simp at hvis

/-- Witness for `collapse_center_view_nonempty`: the default graph with the
center toggled out of the expansion set. -/
theorem collapse_center_view_nonempty_witness :
    (visibleData DEFAULT_GRAPH_DATA {"center", "planet", "satellite"} ∅ "").nodes ≠ [] :=
  collapse_center_view_nonempty DEFAULT_GRAPH_DATA {"center", "planet", "satellite"} ∅
    (by decide)

/-- **C7** counterexample: both rows resolve to the same trimmed name
"AGI_CORE", yet the output graph contains zero nodes carrying that name and
zero links — not exactly one of each — because the dedup set is seeded with
the reserved center id. -/
theorem csv_dedup_cex :
    rowsCenterDup.map acceptName = [some "AGI_CORE", some "AGI_CORE"] ∧
    ((parseCsvToGraph (fun _ => 0) rowsCenterDup).nodes.filter fun n =>
        n.name = "AGI_CORE") = [] ∧
    (parseCsvToGraph (fun _ => 0) rowsCenterDup).links = [] := by
  refine ⟨by decide, by decide, by decide⟩

/-- **C7** (amended): CSV ingestion de-duplicates by trimmed resolved name
with first occurrence winning, provided the name is not the reserved center
id "AGI_CORE" (rows resolving to it are skipped entirely): when the first
row resolving to `nm` is row `r` at index `i`, the output graph contains
exactly one planet node named `nm` — carrying that first row's fields — and
exactly one link targeting it (from the center); rows with unresolvable or
empty-trimming names are skipped without affecting this. -/
theorem csv_dedup_first_wins (jitter : ℕ → ℚ) (rows : List Row) (nm : String)
    (i : ℕ) (r : Row) (hnm : nm ≠ "AGI_CORE")
    (hfind : rows.enum.find? (fun ir => acceptName ir.2 == some nm) = some (i, r)) :
    ((parseCsvToGraph jitter rows).nodes.filter fun n =>
        n.group = "planet" ∧ n.name = nm) = [mkRowNode nm r (jitter i)] ∧
    ((parseCsvToGraph jitter rows).links.filter fun lk => lk.target.endId = nm) =
      [{ source := .plain "AGI_CORE", target := .plain nm }] := by
  have hseed : nm ∉ ({"AGI_CORE"} : Finset String) := by
    simp [hnm]
  have h := parse_foldl_firstwins jitter rows.enum
    { nodes := [centerNode], links := [], seen := {"AGI_CORE"} } nm hseed
  rw [hfind] at h
  obtain ⟨h1, h2⟩ := h
  constructor
  · show ((rows.enum.foldl (parseStep jitter)
        { nodes := [centerNode], links := [], seen := {"AGI_CORE"} }).nodes.filter
          fun n => n.group = "planet" ∧ n.name = nm) = [mkRowNode nm r (jitter i)]
    rw [h1]
    simp [centerNode]
  · show ((rows.enum.foldl (parseStep jitter)
        { nodes := [centerNode], links := [], seen := {"AGI_CORE"} }).links.filter
          fun lk => lk.target.endId = nm) =
      [{ source := .plain "AGI_CORE", target := .plain nm }]
    rw [h2]
    rfl

/-- Witness for `csv_dedup_first_wins`: two rows named "Foo" around a row
whose name trims to empty; ingestion keeps exactly the first "Foo" row's
node and link, and the blank row does not abort the rest. -/
theorem csv_dedup_first_wins_witness :
    rowsDedupDemo.map acceptName = [some "Foo", none, some "Foo"] ∧
    ((parseCsvToGraph (fun _ => 0) rowsDedupDemo).nodes.filter fun n =>
        n.group = "planet" ∧ n.name = "Foo") =
      [mkRowNode "Foo" [("Name", " Foo "), ("Description", "Bar")] 0] ∧
    ((parseCsvToGraph (fun _ => 0) rowsDedupDemo).links.filter fun lk =>
        lk.target.endId = "Foo") =
      [{ source := .plain "AGI_CORE", target := .plain "Foo" }] :=
  ⟨by decide,
    (csv_dedup_first_wins (fun _ => 0) rowsDedupDemo "Foo" 0
      [("Name", " Foo "), ("Description", "Bar")] (by decide) (by decide)).1,
    (csv_dedup_first_wins (fun _ => 0) rowsDedupDemo "Foo" 0
      [("Name", " Foo "), ("Description", "Bar")] (by decide) (by decide)).2⟩

/-- **C10**: satellite gating tests only expansion-set membership of a
neighbor id, not the neighbor's own visibility: a satellite whose group is
active and which has a neighbor id in the expansion set is visible in
explore mode even when every node carrying that neighbor id has an inactive
group, and then no visible link connects the two ids. -/
theorem satellite_gating_ignores_neighbor_visibility
    (g : GraphData) (ag es : Finset String) (sat : GraphNode) (nbrId : String)
    (hsat : sat ∈ g.nodes) (hgrp : sat.group = "satellite") (hag : sat.group ∈ ag)
    (hnbr : nbrId ∈ neighbors g sat.id) (hes : nbrId ∈ es)
    (hhid : ∀ n ∈ g.nodes, n.id = nbrId → n.group ∉ ag) :
    sat ∈ (visibleData g ag es "").nodes ∧
      ∀ l ∈ (visibleData g ag es "").links,
        ¬((l.source.endId = sat.id ∧ l.target.endId = nbrId) ∨
          (l.source.endId = nbrId ∧ l.target.endId = sat.id)) := by
  have hshow : exploreShow g ag es sat = true :=
    exploreShow_iff.mpr ⟨hag, Or.inr (Or.inr ⟨hgrp, ⟨nbrId, hnbr, hes⟩⟩)⟩
  have hnbr_not : nbrId ∉ nodesToShow g ag es := by
    intro hmem
    rcases mem_nodesToShow.mp hmem with ⟨m, hm, hsh, hid⟩
    exact absurd (exploreShow_iff.mp hsh).1 (hhid m hm hid)
  constructor
  · exact mem_explore_nodes.mpr ⟨hsat, mem_nodesToShow.mpr ⟨sat, hsat, hshow, rfl⟩⟩
  · intro l hl
    rw [visibleData_explore_eq] at hl
    simp only [List.mem_filter, decide_eq_true_eq] at hl
    rintro (⟨hs, ht⟩ | ⟨hs, ht⟩)
    · exact hnbr_not (ht ▸ hl.2.2)
    · exact hnbr_not (hs ▸ hl.2.1)

/-- Witness for `satellite_gating_ignores_neighbor_visibility`: on the
default graph with the planet tier filtered out, Transformers is visible
because its hidden neighbor Neural_Nets is expanded, and no visible link
connects them. -/
theorem satellite_gating_ignores_neighbor_visibility_witness :
    transformersNode ∈ (visibleData DEFAULT_GRAPH_DATA {"center", "satellite"}
        {"AGI_CORE", "Neural_Nets"} "").nodes ∧
      ∀ l ∈ (visibleData DEFAULT_GRAPH_DATA {"center", "satellite"}
          {"AGI_CORE", "Neural_Nets"} "").links,
        ¬((l.source.endId = transformersNode.id ∧ l.target.endId = "Neural_Nets") ∨
          (l.source.endId = "Neural_Nets" ∧ l.target.endId = transformersNode.id)) :=
  satellite_gating_ignores_neighbor_visibility DEFAULT_GRAPH_DATA
    {"center", "satellite"} {"AGI_CORE", "Neural_Nets"} transformersNode
    "Neural_Nets" (by decide) (by decide) (by decide) (by decide) (by decide)
    (by decide)
